import Mathlib

/-
  Verification of the theme-service and user-controller logic of the
  oidc-platform repository.

  The theme service (src/api/src/application/theme/theme-service.js) is
  embedded as pure Lean functions over an explicit environment holding the
  persisted client/template records, the default-asset filesystem, and the
  external rendering capabilities (handlebars compilation and the custom
  Template::render method).  Each service call returns a `Res`: the list of
  I/O events it performed (database fetches and file reads, in order)
  together with either a JavaScript-level error or its value.

  The user controller (src/api/src/application/user/user-controller.js)
  contributes `changePassword` (embedded as the list of effects it performs)
  and the `expandDotPaths` helper (embedded over a model of JavaScript
  objects, with lodash `set` modelled as nested-path assignment that splits
  keys on dots, reuses existing object values along the path and replaces
  non-object intermediates by fresh objects).
-/

namespace OidcPlatform

/-- A layout row, as loaded through the `layout` relation. -/
structure LayoutRec where
  name : String
  code : String
deriving DecidableEq

/-- A template row of the `template` table, with its `layout` relation
loaded (`fetch({withRelated: [...]})` in the source). -/
structure TemplateRec where
  theme_id : Nat
  name : String
  layout : LayoutRec
deriving DecidableEq

/-- A client row: `client_id` plus the nullable `theme_id` foreign key. -/
structure ClientRec where
  client_id : String
  theme_id : Option Nat
deriving DecidableEq

/-- A handlebars rendering context: the key/value data passed to a view. -/
abbrev Ctx := List (String × String)

/-- An I/O action performed by the theme service: a database fetch of a
client, a database fetch of a template, or a file read. -/
inductive IOEvent where
  | dbFetchClient (clientId : String)
  | dbFetchTemplate (themeId : Nat) (page : String)
  | fileRead (path : String)
deriving DecidableEq

/-- A JavaScript-level failure: a `Hoek.assert` error, the TypeError raised
by calling `.get` on a null fetch result (client not found), or the ENOENT
error from `fs.readFile` on a missing default asset. -/
inductive JsError where
  | assertionError (msg : String)
  | typeError
  | fileNotFound (path : String)
deriving DecidableEq

/-- The outcome of one service call: the I/O events it performed, in order,
and either an error or the returned value. -/
structure Res (α : Type) where
  trace : List IOEvent
  result : Except JsError α

/-- Whether an I/O event writes to any persisted state.  The theme service
only ever issues bookshelf `fetch` calls and `fs.readFile` calls, all of
which are reads. -/
def IOEvent.mutatesState : IOEvent → Bool
  | IOEvent.dbFetchClient _ => false
  | IOEvent.dbFetchTemplate _ _ => false
  | IOEvent.fileRead _ => false

/-- The environment a theme-service call runs against: the persisted rows,
the on-disk default assets, the handlebars compiler (source text applied to
a context), the `defaultLayouts` page-to-filename mapping, and the external
`Template::render` capability. -/
structure ThemeEnv where
  clients : List ClientRec
  templates : List TemplateRec
  files : List (String × String)
  compile : String → Ctx → String
  defaultLayouts : List (String × String)
  renderCustom : TemplateRec → String → Ctx → String

/-- Association-list lookup used to model keyed access. -/
def lookupStr : List (String × String) → String → Option String
  | [], _ => none
  | (k, v) :: rest, key => if k = key then some v else lookupStr rest key

/-- `bookshelf.model('client').where({client_id}).fetch()`: first matching
row, or null when absent. -/
def findClient (cs : List ClientRec) (cid : String) : Option ClientRec :=
  cs.find? (fun c => decide (c.client_id = cid))

/-- `bookshelf.model('template').where({theme_id, name}).fetch(...)`. -/
def findTemplate (ts : List TemplateRec) (tid : Nat) (page : String) : Option TemplateRec :=
  ts.find? (fun t => decide (t.theme_id = tid) && decide (t.name = page))

/-- `ThemeService.fetchTemplate(clientId, page)`.  The clientId argument is
`Option String` so that a JavaScript `undefined`/`null` is `none`; the Hoek
assertion rejects `none` and the empty string (the falsy strings).  A `none`
fetch result for the client makes `client.get('theme_id')` throw
(`typeError`).  `template || false` is modelled by `Option TemplateRec`. -/
def fetchTemplate (env : ThemeEnv) (clientId : Option String) (page : String) :
    Res (Option TemplateRec) :=
  match clientId with
  | none => ⟨[], Except.error (JsError.assertionError ("clientId is required in ThemeService::fetchTemplate"))⟩
  | some cid =>
    if cid = "" then
      ⟨[], Except.error (JsError.assertionError ("clientId is required in ThemeService::fetchTemplate"))⟩
    else
      match findClient env.clients cid with
      | none => ⟨[IOEvent.dbFetchClient cid], Except.error JsError.typeError⟩
      | some client =>
        match client.theme_id with
        | none => ⟨[IOEvent.dbFetchClient cid], Except.ok none⟩
        | some tid =>
          ⟨[IOEvent.dbFetchClient cid, IOEvent.dbFetchTemplate tid page],
           Except.ok (findTemplate env.templates tid page)⟩

/-- The default layout path `./templates/layout/${defaultLayouts[page]}`;
a page missing from the mapping interpolates as the string undefined. -/
def layoutPathFor (env : ThemeEnv) (page : String) : String :=
  "./templates/layout/" ++
    (match lookupStr env.defaultLayouts page with
     | some name => name
     | none => "undefined")

/-- The default page template path `./templates/${page}.hbs`. -/
def pagePathFor (page : String) : String :=
  "./templates/" ++ page ++ ".hbs"

/-- The default-rendering branch of `getThemedTemplate`: read the layout
file, read the page file, compile both, render the page with the context,
merge the result into the context under `content`, render the layout. -/
def assignCtx : Ctx → String → String → Ctx
  | [], k, v => [(k, v)]
  | (k2, v2) :: rest, k, v =>
    if k2 = k then (k, v) :: rest else (k2, v2) :: assignCtx rest k v

/-- The no-custom-template branch of `getThemedTemplate` (lines 34-40 of the
source): sequential reads of the layout file then the page file, each a
fatal `fileNotFound` when absent, then handlebars rendering with the
`content`-merged context. -/
def renderDefault (env : ThemeEnv) (page : String) (context : Ctx) (tr : List IOEvent) :
    Res (Option TemplateRec × String) :=
  match lookupStr env.files (layoutPathFor env page) with
  | none =>
    ⟨tr ++ [IOEvent.fileRead (layoutPathFor env page)],
     Except.error (JsError.fileNotFound (layoutPathFor env page))⟩
  | some layoutCode =>
    match lookupStr env.files (pagePathFor page) with
    | none =>
      ⟨tr ++ [IOEvent.fileRead (layoutPathFor env page), IOEvent.fileRead (pagePathFor page)],
       Except.error (JsError.fileNotFound (pagePathFor page))⟩
    | some templateCode =>
      ⟨tr ++ [IOEvent.fileRead (layoutPathFor env page), IOEvent.fileRead (pagePathFor page)],
       Except.ok (none, env.compile layoutCode (assignCtx context ("content") (env.compile templateCode context)))⟩

/-- `ThemeService.getThemedTemplate(clientId, page, context)`: assert the
clientId, delegate the lookup to `fetchTemplate`, then either render the
default assets or delegate to `template.render(page, context)`. -/
def getThemedTemplate (env : ThemeEnv) (clientId : Option String) (page : String) (context : Ctx) :
    Res (Option TemplateRec × String) :=
  match clientId with
  | none => ⟨[], Except.error (JsError.assertionError ("clientId is required in ThemeService::getThemedTemplate"))⟩
  | some cid =>
    if cid = "" then
      ⟨[], Except.error (JsError.assertionError ("clientId is required in ThemeService::getThemedTemplate"))⟩
    else
      match fetchTemplate env (some cid) page with
      | ⟨tr, Except.error e⟩ => ⟨tr, Except.error e⟩
      | ⟨tr, Except.ok none⟩ => renderDefault env page context tr
      | ⟨tr, Except.ok (some t)⟩ => ⟨tr, Except.ok (some t, env.renderCustom t page context)⟩

/-- `ThemeService.renderThemedTemplate(clientId, page, context)`: await
`getThemedTemplate` and return only its `renderedTemplate` component. -/
def renderThemedTemplate (env : ThemeEnv) (clientId : Option String) (page : String) (context : Ctx) :
    Res String :=
  match getThemedTemplate env clientId page context with
  | ⟨tr, Except.error e⟩ => ⟨tr, Except.error e⟩
  | ⟨tr, Except.ok p⟩ => ⟨tr, Except.ok p.2⟩

/-- The spec-side description of default rendering (section 4.2 / section 8
of the spec): compile `./templates/<page>.hbs`, render it with the context,
place the result into the context under the key `content`, and render the
page's mapped default layout with that merged context.  `none` when either
default asset is missing. -/
def specDefaultRender (env : ThemeEnv) (page : String) (context : Ctx) : Option String :=
  match lookupStr env.files (pagePathFor page), lookupStr env.files (layoutPathFor env page) with
  | some pageCode, some layoutCode =>
    some (env.compile layoutCode (assignCtx context ("content") (env.compile pageCode context)))
  | _, _ => none

/-- A user row as used by `changePassword`: the id, email and stored
password hash accessed through `user.get(...)`. -/
structure UserRec where
  id : Nat
  email : String
  password : String
deriving DecidableEq

/-- External capabilities of the user controller: `comparePasswords` (the
lib/comparePasswords module, a bcrypt-style check of the supplied current
password against the user row) and `userService.encryptPassword`. -/
structure UserControllerEnv where
  comparePasswords : String → UserRec → Bool
  encryptPassword : String → String

/-- An observable effect of `changePassword`: a `userService.update` of the
user row, a `userService.sendPasswordChangeEmail`, or the final `render`
call with its optional validation-error object. -/
inductive UserEvent where
  | updateUser (id : Nat) (password : String)
  | passwordChangeEmail (email : String) (client : String)
  | renderPage (error : Option (List (String × List String)))
deriving DecidableEq

/-- `userController.changePassword` (lines 46-59 of the source), embedded as
the ordered list of effects it performs: authenticate the supplied current
password; when it matches, update the user with the hash of the new
password and send the password-change email, then render with no error;
otherwise only render with the `current` validation error. -/
def changePassword (env : UserControllerEnv) (current password : String)
    (user : UserRec) (client : String) : List UserEvent :=
  let isAuthenticated := env.comparePasswords current user
  if isAuthenticated then
    let hashedPassword := env.encryptPassword password
    [UserEvent.updateUser user.id hashedPassword,
     UserEvent.passwordChangeEmail user.email client,
     UserEvent.renderPage none]
  else
    [UserEvent.renderPage (some [(("current"), ["Password is incorrect"])])]

/-- A JavaScript value as manipulated by `expandDotPaths`: undefined, a
primitive (its precise contents are irrelevant, a string stands for any
non-object), or an object given as an ordered association list. -/
inductive JsValue where
  | undef : JsValue
  | str : String → JsValue
  | obj : List (String × JsValue) → JsValue

/-- A JavaScript object: an ordered list of distinct keys with values. -/
abbrev JsObj := List (String × JsValue)

/-- Property read `o[key]`. -/
def lookupJs : JsObj → String → Option JsValue
  | [], _ => none
  | (k, v) :: rest, key => if k = key then some v else lookupJs rest key

/-- Property delete `delete o[key]` (keys are unique; modelled as removing
every pair with that key). -/
def eraseKey : JsObj → String → JsObj
  | [], _ => []
  | (k, v) :: rest, key =>
    if k = key then eraseKey rest key else (k, v) :: eraseKey rest key

/-- Property write `o[key] = v`: overwrite in place when the key exists,
append at the end otherwise (JavaScript insertion-order semantics). -/
def assignJs : JsObj → String → JsValue → JsObj
  | [], key, v => [(key, v)]
  | (k, w) :: rest, key, v =>
    if k = key then (key, v) :: rest else (k, w) :: assignJs rest key v

/-- Does the key contain a dot (`key.indexOf(46) > -1` on its characters)? -/
def hasDotChars : List Char → Bool
  | [] => false
  | c :: cs => if c = '.' then true else hasDotChars cs

/-- `key.indexOf(chr(46)) > -1` in the source. -/
def hasDot (key : String) : Bool := hasDotChars key.data

/-- Split a character list at every dot; models lodash path parsing of a
dotted key (`stringToPath`).  Always returns at least one piece, and no
piece contains a dot. -/
def splitDots : List Char → List (List Char)
  | [] => [[]]
  | c :: cs =>
    if c = '.' then [] :: splitDots cs
    else
      match splitDots cs with
      | [] => [[c]]
      | p :: ps => (c :: p) :: ps

/-- The lodash path of a key: its dot-separated pieces. -/
def pathOf (key : String) : List String :=
  (splitDots key.data).map (fun cs => String.mk cs)

/-- The object to descend into at an intermediate path step: an existing
object value is reused, anything else (missing, undefined, primitive) is
replaced by a fresh empty object, as lodash `baseSet` does. -/
def childOf : Option JsValue → JsObj
  | some (JsValue.obj fields) => fields
  | _ => []

/-- Modelled from lodash `_.set(object, path, value)` restricted to the
object-keyed paths this controller uses: walk the path, reusing an existing
object value at each intermediate step and replacing a missing or
non-object value by a fresh empty object, then assign the final key.
(lodash would create arrays instead of objects for integer-like path
pieces; the form-field keys this code is called with are non-numeric.) -/
def setPath : JsObj → List String → JsValue → JsObj
  | o, [], _ => o
  | o, k :: ks, v =>
    match ks with
    | [] => assignJs o k v
    | _ :: _ => assignJs o k (JsValue.obj (setPath (childOf (lookupJs o k)) ks v))

/-- Read along a nested path; used only to state properties of the result
of `expandDotPaths`. -/
def getPath : JsObj → List String → Option JsValue
  | _, [] => none
  | o, k :: ks =>
    match ks with
    | [] => lookupJs o k
    | _ :: _ =>
      match lookupJs o k with
      | some (JsValue.obj fields) => getPath fields ks
      | _ => none

/-- One iteration of the `Object.keys(object).forEach` loop in
`expandDotPaths`: for a dotted key, read the current value, delete the key,
and `set` the value along the dotted path; other keys are untouched. -/
def expandStep (o : JsObj) (key : String) : JsObj :=
  if hasDot key then
    let value :=
      match lookupJs o key with
      | some v => v
      | none => JsValue.undef
    setPath (eraseKey o key) (pathOf key) value
  else o

/-- `expandDotPaths(object)` (lines 14-23 of user-controller.js): iterate
over the snapshot of the object's keys, expanding every dotted key into its
nested path. -/
def expandDotPaths (object : JsObj) : JsObj :=
  (object.map Prod.fst).foldl expandStep object

/-- Is `p` an initial segment of `q`?  Used to state the no-overlap
condition between the dot-paths of two keys. -/
def startsWith : List String → List String → Bool
  | [], _ => true
  | _ :: _, [] => false
  | a :: as, b :: bs => decide (a = b) && startsWith as bs

/- Concrete test data used by the witnesses. -/

/-- A concrete layout row. -/
def layoutA : LayoutRec := ⟨("main"), ("LAYOUT-SRC")⟩

/-- A concrete template row for page login under theme 7. -/
def templateA : TemplateRec := ⟨7, ("login"), layoutA⟩

/-- A client with a null theme reference. -/
def clientNoTheme : ClientRec := ⟨("c1"), none⟩

/-- A client pointing at theme 7. -/
def clientThemed : ClientRec := ⟨("c2"), some 7⟩

/-- A concrete stand-in for handlebars compilation: tag the template source
with the rendered context so distinct inputs stay distinguishable. -/
def ctxShow : Ctx → String :=
  fun l => (l.map (fun p => p.1 ++ ("=") ++ p.2)).foldl (fun a b => a ++ (";") ++ b) ""

/-- Concrete compile capability for the witnesses. -/
def compileA : String → Ctx → String :=
  fun code ctx => code ++ ("[") ++ ctxShow ctx ++ ("]")

/-- A fully populated environment: both clients, the custom template, and
both default assets for the login page on disk. -/
def envA : ThemeEnv :=
  ⟨[clientNoTheme, clientThemed],
   [templateA],
   [(("./templates/layout/main.hbs"), ("L-SRC")), (("./templates/login.hbs"), ("P-SRC"))],
   compileA,
   [(("login"), ("main.hbs"))],
   fun t page _ => ("custom:") ++ t.name ++ (":") ++ page⟩

/-- An environment whose filesystem holds no default assets at all. -/
def envNoFiles : ThemeEnv :=
  ⟨[clientNoTheme], [], [], fun _ _ => "", [], fun _ _ _ => ""⟩

/- Helper lemmas. -/

/-- No I/O event of the theme service writes to persisted state. -/
lemma mutatesState_false (e : IOEvent) : e.mutatesState = false := by
  cases e <;> rfl

/-- Every I/O event the theme service can perform is a read. -/
lemma all_events_read_only (l : List IOEvent) :
    l.all (fun e => !e.mutatesState) = true := by
  induction l with
  | nil => rfl
  | cons e t ih => simp [List.all_cons, ih, mutatesState_false]

/-- When the client lookup succeeded and reported no custom template,
`getThemedTemplate` runs the default-rendering branch. -/
lemma getThemedTemplate_default (env : ThemeEnv) (cid page : String)
    (context : Ctx) (tr : List IOEvent) (hcid : ¬ cid = "")
    (hft : fetchTemplate env (some cid) page = ⟨tr, Except.ok none⟩) :
    getThemedTemplate env (some cid) page context = renderDefault env page context tr := by
  simp [getThemedTemplate, hcid, hft]

/-- Default rendering with both assets on disk: the layout compiled against
the `content`-merged context. -/
lemma renderDefault_result_ok (env : ThemeEnv) (page : String) (context : Ctx)
    (tr : List IOEvent) (lc pc : String)
    (hl : lookupStr env.files (layoutPathFor env page) = some lc)
    (hp : lookupStr env.files (pagePathFor page) = some pc) :
    renderDefault env page context tr =
      ⟨tr ++ [IOEvent.fileRead (layoutPathFor env page), IOEvent.fileRead (pagePathFor page)],
       Except.ok (none, env.compile lc (assignCtx context ("content") (env.compile pc context)))⟩ := by
  simp [renderDefault, hl, hp]

/-- The result of `renderThemedTemplate` is the second projection of the
result of `getThemedTemplate`, over the same I/O trace. -/
lemma renderThemedTemplate_trace_result (env : ThemeEnv)
    (clientId : Option String) (page : String) (context : Ctx) :
    (renderThemedTemplate env clientId page context).trace =
      (getThemedTemplate env clientId page context).trace ∧
    (renderThemedTemplate env clientId page context).result =
      Except.map Prod.snd (getThemedTemplate env clientId page context).result := by
  unfold renderThemedTemplate
  cases h : getThemedTemplate env clientId page context with
  | mk tr res => cases res <;> simp [Except.map]

/-- Claim C1: for every client record present in the store and every page
name, `fetchTemplate(clientId, page)` returns false when the client has no
theme reference, returns false when the client's theme has no template
named page, and otherwise returns the matching template record (which
carries its layout relation). -/
theorem fetchTemplate_resolution_cases (env : ThemeEnv) (client : ClientRec)
    (cid page : String) (hcid : ¬ cid = "")
    (hfind : findClient env.clients cid = some client) :
    (client.theme_id = none →
      (fetchTemplate env (some cid) page).result = Except.ok none) ∧
    (∀ tid : Nat, client.theme_id = some tid →
      ((findTemplate env.templates tid page = none →
          (fetchTemplate env (some cid) page).result = Except.ok none) ∧
       (∀ t : TemplateRec, findTemplate env.templates tid page = some t →
          (fetchTemplate env (some cid) page).result = Except.ok (some t)))) := by
  refine ⟨?_, ?_⟩
  · intro h
    simp [fetchTemplate, hcid, hfind, h]
  · intro tid htid
    refine ⟨?_, ?_⟩
    · intro hnone
      simp [fetchTemplate, hcid, hfind, htid, hnone]
    · intro t ht
      simp [fetchTemplate, hcid, hfind, htid, ht]

/-- Witness for C1, at the no-theme client of the concrete store. -/
theorem fetchTemplate_resolution_cases_witness :
    (¬ ("c1") = "") ∧ findClient envA.clients ("c1") = some clientNoTheme ∧
    ((clientNoTheme.theme_id = none →
       (fetchTemplate envA (some ("c1")) ("login")).result = Except.ok none) ∧
     (∀ tid : Nat, clientNoTheme.theme_id = some tid →
       ((findTemplate envA.templates tid ("login") = none →
           (fetchTemplate envA (some ("c1")) ("login")).result = Except.ok none) ∧
        (∀ t : TemplateRec, findTemplate envA.templates tid ("login") = some t →
           (fetchTemplate envA (some ("c1")) ("login")).result = Except.ok (some t))))) :=
  ⟨by decide, rfl,
   fetchTemplate_resolution_cases envA clientNoTheme ("c1") ("login") (by decide) rfl⟩

/-- Claim C4: `renderThemedTemplate` performs exactly `getThemedTemplate`
and returns only its `renderedTemplate` component: same I/O trace, and a
result that is the second projection of the pair. -/
theorem renderThemedTemplate_is_projection (env : ThemeEnv)
    (clientId : Option String) (page : String) (context : Ctx) :
    (renderThemedTemplate env clientId page context).trace =
      (getThemedTemplate env clientId page context).trace ∧
    (renderThemedTemplate env clientId page context).result =
      Except.map Prod.snd (getThemedTemplate env clientId page context).result :=
  renderThemedTemplate_trace_result env clientId page context

/-- Claim C5: a falsy client identifier (undefined/null modelled as `none`,
or the empty string) makes both `fetchTemplate` and `getThemedTemplate`
fail immediately with the Hoek assertion error, with an empty I/O trace:
no database fetch and no file read occurs. -/
theorem falsy_clientId_asserts_before_io (env : ThemeEnv)
    (clientId : Option String) (page : String) (context : Ctx)
    (h : clientId = none ∨ clientId = some "") :
    fetchTemplate env clientId page =
      ⟨[], Except.error (JsError.assertionError ("clientId is required in ThemeService::fetchTemplate"))⟩ ∧
    getThemedTemplate env clientId page context =
      ⟨[], Except.error (JsError.assertionError ("clientId is required in ThemeService::getThemedTemplate"))⟩ := by
  rcases h with h | h <;> subst h <;> exact ⟨rfl, rfl⟩

/-- Witness for C5 at the undefined client identifier. -/
theorem falsy_clientId_asserts_before_io_witness :
    ((none : Option String) = none ∨ (none : Option String) = some "") ∧
    (fetchTemplate envA none ("login") =
      ⟨[], Except.error (JsError.assertionError ("clientId is required in ThemeService::fetchTemplate"))⟩ ∧
     getThemedTemplate envA none ("login") [] =
      ⟨[], Except.error (JsError.assertionError ("clientId is required in ThemeService::getThemedTemplate"))⟩) :=
  ⟨Or.inl rfl, falsy_clientId_asserts_before_io envA none ("login") [] (Or.inl rfl)⟩

/-- Claim C7: every theme-service operation is stateless and deterministic.
In this pure embedding two calls with the same arguments against the same
environment are definitionally the same value, and every I/O event any of
the three operations performs is a read (bookshelf `fetch` / `fs.readFile`);
none mutates persisted state. -/
theorem theme_service_stateless_readonly (env : ThemeEnv)
    (clientId : Option String) (page : String) (context : Ctx) :
    (fetchTemplate env clientId page = fetchTemplate env clientId page ∧
     getThemedTemplate env clientId page context = getThemedTemplate env clientId page context ∧
     renderThemedTemplate env clientId page context = renderThemedTemplate env clientId page context) ∧
    ((fetchTemplate env clientId page).trace.all (fun e => !e.mutatesState) = true ∧
     (getThemedTemplate env clientId page context).trace.all (fun e => !e.mutatesState) = true ∧
     (renderThemedTemplate env clientId page context).trace.all (fun e => !e.mutatesState) = true) :=
  ⟨⟨rfl, rfl, rfl⟩,
   all_events_read_only _, all_events_read_only _, all_events_read_only _⟩

/-- Concrete rendering context used by the witnesses. -/
def ctxW : Ctx := [(("email"), ("bad"))]

/-- The HTML the default path produces for the login page of `envA` when
rendered with `ctxW`. -/
def htmlW : String :=
  compileA ("L-SRC") (assignCtx ctxW ("content") (compileA ("P-SRC") ctxW))

/-- Claim C2: for a client with no custom template for the page,
`getThemedTemplate` returns exactly the HTML described by the spec: compile
`./templates/<page>.hbs`, render it with the context, place the result into
the context under the key `content`, and render the page's mapped default
layout with that merged context. -/
theorem getThemedTemplate_default_matches_spec (env : ThemeEnv)
    (cid page : String) (context : Ctx) (html : String)
    (hcid : ¬ cid = "")
    (hfetch : (fetchTemplate env (some cid) page).result = Except.ok none)
    (hspec : specDefaultRender env page context = some html) :
    (getThemedTemplate env (some cid) page context).result = Except.ok (none, html) := by
  cases hft : fetchTemplate env (some cid) page with
  | mk tr res =>
    have hres : res = Except.ok none := by rw [hft] at hfetch; exact hfetch
    subst hres
    rw [getThemedTemplate_default env cid page context tr hcid hft]
    cases hp : lookupStr env.files (pagePathFor page) with
    | none => simp [specDefaultRender, hp] at hspec
    | some pc =>
      cases hl : lookupStr env.files (layoutPathFor env page) with
      | none => simp [specDefaultRender, hp, hl] at hspec
      | some lc =>
        simp [specDefaultRender, hp, hl] at hspec
        rw [renderDefault_result_ok env page context tr lc pc hl hp]
        simp [hspec]

/-- Witness for C2 at the concrete environment: the no-theme client, the
login page and the context `ctxW`. -/
theorem getThemedTemplate_default_matches_spec_witness :
    (¬ ("c1") = "") ∧
    (fetchTemplate envA (some ("c1")) ("login")).result = Except.ok none ∧
    specDefaultRender envA ("login") ctxW = some htmlW ∧
    (getThemedTemplate envA (some ("c1")) ("login") ctxW).result = Except.ok (none, htmlW) :=
  ⟨by decide, rfl, rfl,
   getThemedTemplate_default_matches_spec envA ("c1") ("login") ctxW htmlW (by decide) rfl rfl⟩

/-- Counterexample to claim C3 as stated: in an environment whose
filesystem holds no default assets, the existing client `c1` has no theme,
yet `getThemedTemplate` raises a hard failure (the propagated
file-not-found error) instead of falling back. -/
theorem themed_fallback_counterexample :
    findClient envNoFiles.clients ("c1") = some clientNoTheme ∧
    clientNoTheme.theme_id = none ∧
    (getThemedTemplate envNoFiles (some ("c1")) ("login") []).result =
      Except.error (JsError.fileNotFound ("./templates/layout/undefined")) :=
  ⟨rfl, rfl, rfl⟩

/-- Claim C3 (amended): for an existing client with no theme, or whose
theme has no template for the page, `getThemedTemplate` and
`renderThemedTemplate` fall back to the default static template/layout pair
and raise no failure, provided the default layout and page template files
for that page exist on disk. -/
theorem themed_fallback_no_failure (env : ThemeEnv) (client : ClientRec)
    (cid page : String) (context : Ctx) (lc pc : String)
    (hcid : ¬ cid = "")
    (hfind : findClient env.clients cid = some client)
    (hno : client.theme_id = none ∨
      ∃ tid : Nat, client.theme_id = some tid ∧ findTemplate env.templates tid page = none)
    (hl : lookupStr env.files (layoutPathFor env page) = some lc)
    (hp : lookupStr env.files (pagePathFor page) = some pc) :
    (getThemedTemplate env (some cid) page context).result =
      Except.ok (none, env.compile lc (assignCtx context ("content") (env.compile pc context))) ∧
    (renderThemedTemplate env (some cid) page context).result =
      Except.ok (env.compile lc (assignCtx context ("content") (env.compile pc context))) := by
  cases hft : fetchTemplate env (some cid) page with
  | mk tr res =>
    have hres : res = Except.ok none := by
      rcases hno with h | ⟨tid, htid, hnone⟩
      · have : fetchTemplate env (some cid) page = ⟨[IOEvent.dbFetchClient cid], Except.ok none⟩ := by
          simp [fetchTemplate, hcid, hfind, h]
        rw [hft] at this
        exact congrArg Res.result this
      · have : fetchTemplate env (some cid) page =
            ⟨[IOEvent.dbFetchClient cid, IOEvent.dbFetchTemplate tid page], Except.ok none⟩ := by
          simp [fetchTemplate, hcid, hfind, htid, hnone]
        rw [hft] at this
        exact congrArg Res.result this
    subst hres
    have hg : getThemedTemplate env (some cid) page context =
        ⟨tr ++ [IOEvent.fileRead (layoutPathFor env page), IOEvent.fileRead (pagePathFor page)],
         Except.ok (none, env.compile lc (assignCtx context ("content") (env.compile pc context)))⟩ := by
      rw [getThemedTemplate_default env cid page context tr hcid hft]
      exact renderDefault_result_ok env page context tr lc pc hl hp
    refine ⟨by rw [hg], ?_⟩
    have hmap := (renderThemedTemplate_trace_result env (some cid) page context).2
    rw [hg] at hmap
    simpa [Except.map] using hmap

/-- Witness for C3 at the concrete environment. -/
theorem themed_fallback_no_failure_witness :
    (¬ ("c1") = "") ∧
    findClient envA.clients ("c1") = some clientNoTheme ∧
    (clientNoTheme.theme_id = none ∨
      ∃ tid : Nat, clientNoTheme.theme_id = some tid ∧
        findTemplate envA.templates tid ("login") = none) ∧
    lookupStr envA.files (layoutPathFor envA ("login")) = some ("L-SRC") ∧
    lookupStr envA.files (pagePathFor ("login")) = some ("P-SRC") ∧
    ((getThemedTemplate envA (some ("c1")) ("login") ctxW).result =
      Except.ok (none, envA.compile ("L-SRC") (assignCtx ctxW ("content") (envA.compile ("P-SRC") ctxW))) ∧
     (renderThemedTemplate envA (some ("c1")) ("login") ctxW).result =
      Except.ok (envA.compile ("L-SRC") (assignCtx ctxW ("content") (envA.compile ("P-SRC") ctxW)))) :=
  ⟨by decide, rfl, Or.inl rfl, rfl, rfl,
   themed_fallback_no_failure envA clientNoTheme ("c1") ("login") ctxW ("L-SRC") ("P-SRC")
     (by decide) rfl (Or.inl rfl) rfl rfl⟩

/-- Claim C6: when no custom template exists and a default asset is missing
on disk, `getThemedTemplate` propagates the file-not-found error to its
caller and returns no result: a missing layout file fails with that path,
and a present layout but missing page template fails with the page path. -/
theorem missing_default_asset_propagates (env : ThemeEnv)
    (cid page : String) (context : Ctx)
    (hcid : ¬ cid = "")
    (hfetch : (fetchTemplate env (some cid) page).result = Except.ok none) :
    (lookupStr env.files (layoutPathFor env page) = none →
       (getThemedTemplate env (some cid) page context).result =
         Except.error (JsError.fileNotFound (layoutPathFor env page))) ∧
    (∀ lc : String, lookupStr env.files (layoutPathFor env page) = some lc →
       lookupStr env.files (pagePathFor page) = none →
       (getThemedTemplate env (some cid) page context).result =
         Except.error (JsError.fileNotFound (pagePathFor page))) := by
  cases hft : fetchTemplate env (some cid) page with
  | mk tr res =>
    have hres : res = Except.ok none := by rw [hft] at hfetch; exact hfetch
    subst hres
    rw [getThemedTemplate_default env cid page context tr hcid hft]
    refine ⟨?_, ?_⟩
    · intro hl
      simp [renderDefault, hl]
    · intro lc hl hp
      simp [renderDefault, hl, hp]

/-- Witness for C6 at the asset-free environment. -/
theorem missing_default_asset_propagates_witness :
    (¬ ("c1") = "") ∧
    (fetchTemplate envNoFiles (some ("c1")) ("login")).result = Except.ok none ∧
    ((lookupStr envNoFiles.files (layoutPathFor envNoFiles ("login")) = none →
       (getThemedTemplate envNoFiles (some ("c1")) ("login") []).result =
         Except.error (JsError.fileNotFound (layoutPathFor envNoFiles ("login")))) ∧
     (∀ lc : String, lookupStr envNoFiles.files (layoutPathFor envNoFiles ("login")) = some lc →
       lookupStr envNoFiles.files (pagePathFor ("login")) = none →
       (getThemedTemplate envNoFiles (some ("c1")) ("login") []).result =
         Except.error (JsError.fileNotFound (pagePathFor ("login"))))) :=
  ⟨by decide, rfl,
   missing_default_asset_propagates envNoFiles ("c1") ("login") [] (by decide) rfl⟩

/-- Claim C8: whenever `getThemedTemplate` succeeds, the `template`
component of the returned pair is exactly the result of `fetchTemplate`:
it is false (`none`) exactly when the default rendering path produced the
HTML, and the custom record exactly when rendering was delegated to it. -/
theorem getThemedTemplate_first_component (env : ThemeEnv)
    (cid page : String) (context : Ctx) (t : Option TemplateRec) (s : String)
    (hcid : ¬ cid = "")
    (h : (getThemedTemplate env (some cid) page context).result = Except.ok (t, s)) :
    (fetchTemplate env (some cid) page).result = Except.ok t ∧
    (∀ tmpl : TemplateRec, t = some tmpl → s = env.renderCustom tmpl page context) ∧
    (t = none → specDefaultRender env page context = some s) := by
  cases hft : fetchTemplate env (some cid) page with
  | mk tr res =>
    cases res with
    | error e =>
      have hg : getThemedTemplate env (some cid) page context = ⟨tr, Except.error e⟩ := by
        simp [getThemedTemplate, hcid, hft]
      rw [hg] at h
      exact absurd h (by simp)
    | ok topt =>
      cases topt with
      | none =>
        rw [getThemedTemplate_default env cid page context tr hcid hft] at h
        cases hl : lookupStr env.files (layoutPathFor env page) with
        | none =>
          rw [show renderDefault env page context tr =
              ⟨tr ++ [IOEvent.fileRead (layoutPathFor env page)],
               Except.error (JsError.fileNotFound (layoutPathFor env page))⟩ from by
            simp [renderDefault, hl]] at h
          exact absurd h (by simp)
        | some lc =>
          cases hp : lookupStr env.files (pagePathFor page) with
          | none =>
            rw [show renderDefault env page context tr =
                ⟨tr ++ [IOEvent.fileRead (layoutPathFor env page), IOEvent.fileRead (pagePathFor page)],
                 Except.error (JsError.fileNotFound (pagePathFor page))⟩ from by
              simp [renderDefault, hl, hp]] at h
            exact absurd h (by simp)
          | some pc =>
            rw [renderDefault_result_ok env page context tr lc pc hl hp] at h
            simp only [Res.result] at h
            have hts := Except.ok.inj h
            have ht : (none : Option TemplateRec) = t := congrArg Prod.fst hts
            have hs : env.compile lc (assignCtx context ("content") (env.compile pc context)) = s :=
              congrArg Prod.snd hts
            cases ht
            refine ⟨rfl, ?_, ?_⟩
            · intro tmpl htm
              exact absurd htm (by simp)
            · intro _
              simp only [specDefaultRender, hl, hp]
              rw [hs]
      | some tmpl =>
        have hg : getThemedTemplate env (some cid) page context =
            ⟨tr, Except.ok (some tmpl, env.renderCustom tmpl page context)⟩ := by
          simp [getThemedTemplate, hcid, hft]
        rw [hg] at h
        simp only [Res.result] at h
        have hts := Except.ok.inj h
        have ht : (some tmpl : Option TemplateRec) = t := congrArg Prod.fst hts
        have hs : env.renderCustom tmpl page context = s := congrArg Prod.snd hts
        cases ht
        refine ⟨rfl, ?_, ?_⟩
        · intro tmpl2 htm
          have heq : tmpl = tmpl2 := Option.some.inj htm
          subst heq
          exact hs.symm
        · intro hcontra
          exact absurd hcontra (by simp)

/-- Witness for C8 at the themed client, whose custom login template is
used. -/
theorem getThemedTemplate_first_component_witness :
    (¬ ("c2") = "") ∧
    (getThemedTemplate envA (some ("c2")) ("login") []).result =
      Except.ok (some templateA, ("custom:login:login")) ∧
    ((fetchTemplate envA (some ("c2")) ("login")).result = Except.ok (some templateA) ∧
     (∀ tmpl : TemplateRec, some templateA = some tmpl →
        ("custom:login:login") = envA.renderCustom tmpl ("login") []) ∧
     (some templateA = none → specDefaultRender envA ("login") [] = some ("custom:login:login"))) :=
  ⟨by decide, rfl,
   getThemedTemplate_first_component envA ("c2") ("login") [] (some templateA)
     ("custom:login:login") (by decide) rfl⟩

/-- A concrete user-controller environment for the C9 witness: equality
against the stored password, and a tagging hash. -/
def envUserW : UserControllerEnv :=
  ⟨fun c u => decide (c = u.password), fun s => s ++ ("#hashed")⟩

/-- A concrete user row for the C9 witness. -/
def userW : UserRec := ⟨1, ("u@example.org"), ("oldpw")⟩

/-- Claim C9: when the supplied current password does not match, no user
update is performed and no password-change email is sent — the only effect
is `render` with the error mapping `current` to the message
`Password is incorrect`; when it matches, the user's password is updated to
the hash of the new password and the email is sent, in that order, before
`render` is called with no error. -/
theorem changePassword_behavior (env : UserControllerEnv)
    (current password : String) (user : UserRec) (client : String) :
    (env.comparePasswords current user = false →
      (changePassword env current password user client =
         [UserEvent.renderPage (some [(("current"), ["Password is incorrect"])])] ∧
       (∀ i p, ¬ UserEvent.updateUser i p ∈ changePassword env current password user client) ∧
       (∀ e c, ¬ UserEvent.passwordChangeEmail e c ∈ changePassword env current password user client))) ∧
    (env.comparePasswords current user = true →
      changePassword env current password user client =
        [UserEvent.updateUser user.id (env.encryptPassword password),
         UserEvent.passwordChangeEmail user.email client,
         UserEvent.renderPage none]) := by
  refine ⟨?_, ?_⟩
  · intro h
    refine ⟨by simp [changePassword, h], ?_, ?_⟩
    · intro i p hmem
      simp [changePassword, h] at hmem
    · intro e c hmem
      simp [changePassword, h] at hmem
  · intro h
    simp [changePassword, h]

/-- Witness for C9: the incorrect-password branch at a concrete user. -/
theorem changePassword_behavior_witness :
    envUserW.comparePasswords ("wrongpw") userW = false ∧
    (changePassword envUserW ("wrongpw") ("newpw") userW ("cli") =
       [UserEvent.renderPage (some [(("current"), ["Password is incorrect"])])] ∧
     (∀ i p, ¬ UserEvent.updateUser i p ∈ changePassword envUserW ("wrongpw") ("newpw") userW ("cli")) ∧
     (∀ e c, ¬ UserEvent.passwordChangeEmail e c ∈ changePassword envUserW ("wrongpw") ("newpw") userW ("cli"))) :=
  ⟨by decide,
   (changePassword_behavior envUserW ("wrongpw") ("newpw") userW ("cli")).1 (by decide)⟩

/- Lemmas about the JavaScript-object model, leading to the main theorem
about expandDotPaths. -/

/-- Writing a key makes it readable. -/
lemma lookupJs_assignJs_self (o : JsObj) (k : String) (v : JsValue) :
    lookupJs (assignJs o k v) k = some v := by
  induction o with
  | nil => simp [assignJs, lookupJs]
  | cons p rest ih =>
    obtain ⟨k2, w⟩ := p
    by_cases h : k2 = k
    · subst h
      simp [assignJs, lookupJs]
    · simp [assignJs, lookupJs, h, ih]

/-- Writing a key leaves other keys unchanged. -/
lemma lookupJs_assignJs_ne (o : JsObj) (k : String) (v : JsValue)
    (k2 : String) (h : k2 ≠ k) :
    lookupJs (assignJs o k v) k2 = lookupJs o k2 := by
  induction o with
  | nil => simp [assignJs, lookupJs, Ne.symm h]
  | cons p rest ih =>
    obtain ⟨k3, w⟩ := p
    by_cases h3 : k3 = k
    · subst h3
      simp [assignJs, lookupJs, Ne.symm h]
    · by_cases h2 : k3 = k2
      · subst h2
        simp [assignJs, lookupJs, h3]
      · simp [assignJs, lookupJs, h3, h2, ih]

/-- A deleted key reads as absent. -/
lemma lookupJs_eraseKey_self (o : JsObj) (k : String) :
    lookupJs (eraseKey o k) k = none := by
  induction o with
  | nil => rfl
  | cons p rest ih =>
    obtain ⟨k2, w⟩ := p
    by_cases h : k2 = k
    · simp [eraseKey, h, ih]
    · simp [eraseKey, lookupJs, h, ih]

/-- Deleting a key leaves other keys unchanged. -/
lemma lookupJs_eraseKey_ne (o : JsObj) (k k2 : String) (h : k2 ≠ k) :
    lookupJs (eraseKey o k) k2 = lookupJs o k2 := by
  induction o with
  | nil => rfl
  | cons p rest ih =>
    obtain ⟨k3, w⟩ := p
    by_cases h3 : k3 = k
    · subst h3
      simp [eraseKey, lookupJs, Ne.symm h, ih]
    · by_cases h2 : k3 = k2
      · subst h2
        simp [eraseKey, lookupJs, h3]
      · simp [eraseKey, lookupJs, h3, h2, ih]

/-- Setting along a path only touches the head key at the top level. -/
lemma lookupJs_setPath_ne (o : JsObj) (k0 : String) (ks : List String)
    (v : JsValue) (k : String) (h : k ≠ k0) :
    lookupJs (setPath o (k0 :: ks) v) k = lookupJs o k := by
  cases ks with
  | nil =>
    simp only [setPath]
    exact lookupJs_assignJs_ne o k0 v k h
  | cons a as =>
    simp only [setPath]
    exact lookupJs_assignJs_ne o k0 _ k h

/-- Unfolding lemma for `setPath` at a path of length at least two. -/
lemma setPath_cons_cons (o : JsObj) (k a : String) (as : List String) (v : JsValue) :
    setPath o (k :: a :: as) v =
      assignJs o k (JsValue.obj (setPath (childOf (lookupJs o k)) (a :: as) v)) := rfl

/-- Unfolding lemma for `getPath` at a path of length at least two. -/
lemma getPath_cons_cons (o : JsObj) (q0 b : String) (bs : List String) :
    getPath o (q0 :: b :: bs) =
      (match lookupJs o q0 with
       | some (JsValue.obj fields) => getPath fields (b :: bs)
       | _ => none) := rfl

/-- The value written along a path can be read back along it. -/
lemma getPath_setPath_self (ks : List String) :
    ∀ (o : JsObj) (k0 : String) (v : JsValue),
    getPath (setPath o (k0 :: ks) v) (k0 :: ks) = some v := by
  induction ks with
  | nil =>
    intro o k0 v
    simp only [setPath, getPath]
    exact lookupJs_assignJs_self o k0 v
  | cons a as ih =>
    intro o k0 v
    rw [setPath_cons_cons, getPath_cons_cons, lookupJs_assignJs_self]
    exact ih _ a v

/-- Reading any path out of the empty object yields nothing. -/
lemma getPath_nil_obj (q : List String) : getPath [] q = none := by
  cases q with
  | nil => rfl
  | cons a as => cases as <;> rfl

/-- Deleting a top-level key other than the head of a path does not change
reads along the path. -/
lemma getPath_eraseKey_ne (o : JsObj) (k q0 : String) (qs : List String)
    (h : q0 ≠ k) :
    getPath (eraseKey o k) (q0 :: qs) = getPath o (q0 :: qs) := by
  cases qs with
  | nil =>
    simp only [getPath]
    exact lookupJs_eraseKey_ne o k q0 h
  | cons b bs =>
    simp only [getPath]
    rw [lookupJs_eraseKey_ne o k q0 h]

/-- Setting along one path does not change reads along a path that neither
extends it nor is extended by it. -/
lemma getPath_setPath_diverge (p : List String) :
    ∀ (q : List String) (o : JsObj) (v : JsValue),
    startsWith p q = false → startsWith q p = false →
    getPath (setPath o p v) q = getPath o q := by
  induction p with
  | nil =>
    intro q o v h1 _
    simp [startsWith] at h1
  | cons p0 ps ih =>
    intro q o v h1 h2
    cases q with
    | nil => rfl
    | cons q0 qs =>
      by_cases hpq : p0 = q0
      · subst hpq
        cases ps with
        | nil => simp [startsWith] at h1
        | cons a as =>
          cases qs with
          | nil => simp [startsWith] at h2
          | cons b bs =>
            have h1a : startsWith (a :: as) (b :: bs) = false := by
              simpa [startsWith] using h1
            have h2a : startsWith (b :: bs) (a :: as) = false := by
              simpa [startsWith] using h2
            rw [setPath_cons_cons, getPath_cons_cons, lookupJs_assignJs_self,
                getPath_cons_cons]
            show getPath (setPath (childOf (lookupJs o p0)) (a :: as) v) (b :: bs) =
              (match lookupJs o p0 with
               | some (JsValue.obj fields) => getPath fields (b :: bs)
               | _ => none)
            rw [ih (b :: bs) (childOf (lookupJs o p0)) v h1a h2a]
            cases hlo : lookupJs o p0 with
            | none => simp [childOf, getPath_nil_obj]
            | some w =>
              cases w with
              | obj f => simp [childOf]
              | undef => simp [childOf, getPath_nil_obj]
              | str s2 => simp [childOf, getPath_nil_obj]
      · cases qs with
        | nil =>
          simp only [getPath]
          exact lookupJs_setPath_ne o p0 ps v q0 (fun hh => hpq hh.symm)
        | cons b bs =>
          simp only [getPath]
          rw [lookupJs_setPath_ne o p0 ps v q0 (fun hh => hpq hh.symm)]

/-- Splitting never yields an empty list of pieces. -/
lemma splitDots_ne_nil (cs : List Char) : splitDots cs ≠ [] := by
  induction cs with
  | nil => simp [splitDots]
  | cons c cs ih =>
    simp only [splitDots]
    by_cases h : c = '.'
    · simp [h]
    · rw [if_neg h]
      cases hs : splitDots cs with
      | nil => simp
      | cons p ps => simp

/-- No piece produced by splitting contains a dot. -/
lemma no_dot_in_splitDots (cs : List Char) :
    ∀ p ∈ splitDots cs, hasDotChars p = false := by
  induction cs with
  | nil =>
    intro p hp
    simp [splitDots] at hp
    subst hp
    rfl
  | cons c cs ih =>
    intro p hp
    simp only [splitDots] at hp
    by_cases h : c = '.'
    · rw [if_pos h] at hp
      rcases List.mem_cons.mp hp with h1 | h1
      · subst h1
        rfl
      · exact ih p h1
    · rw [if_neg h] at hp
      cases hs : splitDots cs with
      | nil => exact absurd hs (splitDots_ne_nil cs)
      | cons phd ptl =>
        rw [hs] at hp
        rcases List.mem_cons.mp hp with h1 | h1
        · subst h1
          have hphd : hasDotChars phd = false :=
            ih phd (by rw [hs]; exact List.mem_cons_self phd ptl)
          simp [hasDotChars, h, hphd]
        · exact ih p (by rw [hs]; exact List.mem_cons.mpr (Or.inr h1))

/-- A dot-free character list splits into the single piece it is. -/
lemma splitDots_no_dot (cs : List Char) (h : hasDotChars cs = false) :
    splitDots cs = [cs] := by
  induction cs with
  | nil => rfl
  | cons c cs ih =>
    by_cases hc : c = '.'
    · rw [hasDotChars, if_pos hc] at h
      exact absurd h (by simp)
    · rw [hasDotChars, if_neg hc] at h
      simp [splitDots, hc, ih h]

/-- The path of a key is never empty. -/
lemma pathOf_ne_nil (k : String) : pathOf k ≠ [] := by
  unfold pathOf
  cases hs : splitDots k.data with
  | nil => exact absurd hs (splitDots_ne_nil _)
  | cons p ps => simp

/-- The path of a dot-free key is the key itself. -/
lemma pathOf_dotfree (k : String) (h : hasDot k = false) : pathOf k = [k] := by
  unfold pathOf
  rw [splitDots_no_dot k.data h]
  rfl

/-- Every piece of a key's path is dot-free. -/
lemma pathOf_piece_dotfree (k : String) : ∀ s ∈ pathOf k, hasDot s = false := by
  intro s hs
  unfold pathOf at hs
  obtain ⟨p, hp, hps⟩ := List.mem_map.mp hs
  have hcs : hasDotChars p = false := no_dot_in_splitDots k.data p hp
  rw [← hps]
  exact hcs

/-- A key present in an object reads back some value. -/
lemma lookupJs_isSome_of_mem (o : JsObj) (k : String)
    (h : k ∈ o.map Prod.fst) : ∃ v, lookupJs o k = some v := by
  induction o with
  | nil => simp at h
  | cons p rest ih =>
    obtain ⟨k2, w⟩ := p
    by_cases hk : k2 = k
    · exact ⟨w, by simp [lookupJs, hk]⟩
    · rcases List.mem_cons.mp h with h1 | h1
      · exact absurd h1.symm hk
      · obtain ⟨v, hv⟩ := ih h1
        exact ⟨v, by simp [lookupJs, hk, hv]⟩

/-- Invariant of the `expandDotPaths` fold.  `ps` are the keys already
processed, `ks` the keys still to process, `A` the current object.
Dot-free keys and unprocessed keys still read their original values;
processed dotted keys are gone from the top level and their original value
is readable along their dot-path.  Keys must be distinct and no key's
dot-path may be a prefix of another key's dot-path. -/
lemma expand_fold_inv (o : JsObj) (ks : List String) :
    ∀ (ps : List String) (A : JsObj),
    ps ++ ks = o.map Prod.fst →
    (o.map Prod.fst).Nodup →
    (∀ k1 ∈ o.map Prod.fst, ∀ k2 ∈ o.map Prod.fst, k1 ≠ k2 →
        startsWith (pathOf k1) (pathOf k2) = false) →
    (∀ k ∈ o.map Prod.fst, (hasDot k = false ∨ ¬ k ∈ ps) →
        lookupJs A k = lookupJs o k) →
    (∀ k ∈ ps, hasDot k = true →
        lookupJs A k = none ∧ getPath A (pathOf k) = lookupJs o k) →
    ((∀ k ∈ o.map Prod.fst, hasDot k = false →
        lookupJs (ks.foldl expandStep A) k = lookupJs o k) ∧
     (∀ k ∈ ps ++ ks, hasDot k = true →
        lookupJs (ks.foldl expandStep A) k = none ∧
        getPath (ks.foldl expandStep A) (pathOf k) = lookupJs o k)) := by
  induction ks with
  | nil =>
    intro ps A hkeys hnd hpf hInv1 hInv2
    refine ⟨fun k hk hd => hInv1 k hk (Or.inl hd), ?_⟩
    intro k hk hd
    rw [List.append_nil] at hk
    exact hInv2 k hk hd
  | cons key rest ih =>
    intro ps A hkeys hnd hpf hInv1 hInv2
    have hkeymem : key ∈ o.map Prod.fst := by
      rw [← hkeys]
      exact List.mem_append.mpr (Or.inr (List.mem_cons_self key rest))
    have hndpk : (ps ++ key :: rest).Nodup := by
      rw [hkeys]
      exact hnd
    have hkeyps : ¬ key ∈ ps := by
      intro hin
      have hdisj := (List.nodup_append.mp hndpk).2.2
      exact hdisj hin (List.mem_cons_self key rest)
    have hstep : (key :: rest).foldl expandStep A = rest.foldl expandStep (expandStep A key) :=
      rfl
    have happ : (ps ++ [key]) ++ rest = ps ++ key :: rest := by
      simp [List.append_assoc]
    cases hdot : hasDot key with
    | false =>
      have hA : expandStep A key = A := by simp [expandStep, hdot]
      have hres := ih (ps ++ [key]) (expandStep A key)
        (by rw [happ, hkeys])
        hnd hpf
        (by
          intro k hk hor
          rw [hA]
          apply hInv1 k hk
          rcases hor with h1 | h1
          · exact Or.inl h1
          · exact Or.inr (fun hin => h1 (List.mem_append.mpr (Or.inl hin))))
        (by
          intro k hk hkd
          rw [hA]
          rcases List.mem_append.mp hk with h1 | h1
          · exact hInv2 k h1 hkd
          · have : k = key := List.mem_singleton.mp h1
            subst this
            rw [hkd] at hdot
            exact absurd hdot (by simp))
      rw [hstep]
      refine ⟨hres.1, ?_⟩
      intro k hk hkd
      apply hres.2 k _ hkd
      rw [happ]
      exact hk
    | true =>
      have hAkey : lookupJs A key = lookupJs o key :=
        hInv1 key hkeymem (Or.inr hkeyps)
      obtain ⟨w, hw⟩ := lookupJs_isSome_of_mem o key hkeymem
      have hAw : lookupJs A key = some w := by rw [hAkey, hw]
      have hA : expandStep A key = setPath (eraseKey A key) (pathOf key) w := by
        simp [expandStep, hdot, hAw]
      cases hpath : pathOf key with
      | nil => exact absurd hpath (pathOf_ne_nil key)
      | cons ph pt =>
        have hphdf : hasDot ph = false :=
          pathOf_piece_dotfree key ph (by rw [hpath]; exact List.mem_cons_self ph pt)
        have hkeyph : key ≠ ph := by
          intro he
          rw [he] at hdot
          rw [hphdf] at hdot
          exact absurd hdot (by simp)
        have hres := ih (ps ++ [key]) (expandStep A key)
          (by rw [happ, hkeys])
          hnd hpf
          (by
            intro k hk hor
            have hkne : k ≠ key := by
              intro he
              subst he
              rcases hor with h1 | h1
              · rw [h1] at hdot
                exact absurd hdot (by simp)
              · exact h1 (List.mem_append.mpr (Or.inr (List.mem_singleton.mpr rfl)))
            have hkph : k ≠ ph := by
              intro he
              cases hd : hasDot k with
              | false =>
                have hsw := hpf k hk key hkeymem hkne
                rw [pathOf_dotfree k hd, hpath, he] at hsw
                simp [startsWith] at hsw
              | true =>
                rw [he, hphdf] at hd
                exact absurd hd (by simp)
            rw [hA, hpath]
            rw [lookupJs_setPath_ne _ ph pt w k hkph]
            rw [lookupJs_eraseKey_ne A key k hkne]
            apply hInv1 k hk
            rcases hor with h1 | h1
            · exact Or.inl h1
            · exact Or.inr (fun hin => h1 (List.mem_append.mpr (Or.inl hin))))
          (by
            intro k hk hkd
            rcases List.mem_append.mp hk with h1 | h1
            · have hold := hInv2 k h1 hkd
              have hkne : k ≠ key := fun he => hkeyps (he ▸ h1)
              have hkph : k ≠ ph := by
                intro he
                rw [he, hphdf] at hkd
                exact absurd hkd (by simp)
              have hkmem : k ∈ o.map Prod.fst := by
                rw [← hkeys]
                exact List.mem_append.mpr (Or.inl h1)
              refine ⟨?_, ?_⟩
              · rw [hA, hpath]
                rw [lookupJs_setPath_ne _ ph pt w k hkph]
                rw [lookupJs_eraseKey_ne A key k hkne]
                exact hold.1
              · have hsw1 : startsWith (pathOf key) (pathOf k) = false :=
                  hpf key hkeymem k hkmem (Ne.symm hkne)
                have hsw2 : startsWith (pathOf k) (pathOf key) = false :=
                  hpf k hkmem key hkeymem hkne
                rw [hA]
                rw [getPath_setPath_diverge (pathOf key) (pathOf k) (eraseKey A key) w hsw1 hsw2]
                cases hpk : pathOf k with
                | nil => exact absurd hpk (pathOf_ne_nil k)
                | cons q0 qs =>
                  have hq0df : hasDot q0 = false :=
                    pathOf_piece_dotfree k q0 (by rw [hpk]; exact List.mem_cons_self q0 qs)
                  have hq0key : q0 ≠ key := by
                    intro he
                    rw [← he] at hdot
                    rw [hq0df] at hdot
                    exact absurd hdot (by simp)
                  rw [getPath_eraseKey_ne A key q0 qs hq0key]
                  rw [← hpk]
                  exact hold.2
            · have heq : k = key := List.mem_singleton.mp h1
              subst heq
              refine ⟨?_, ?_⟩
              · rw [hA, hpath]
                rw [lookupJs_setPath_ne _ ph pt w k hkeyph]
                exact lookupJs_eraseKey_self A k
              · rw [hA, hpath]
                rw [getPath_setPath_self pt (eraseKey A k) ph w]
                exact hw.symm)
        rw [hstep]
        refine ⟨hres.1, ?_⟩
        intro k hk hkd
        apply hres.2 k _ hkd
        rw [happ]
        exact hk

/-- The concrete object of the C10 counterexample: a dot-free key `foo`
whose value is overwritten because the dotted key `foo.bar` expands
through it. -/
def exObjC10 : JsObj :=
  [(("foo"), JsValue.str ("x")), (("foo.bar"), JsValue.str ("baz"))]

/-- Counterexample to claim C10 as stated: on
`{foo: "x", "foo.bar": "baz"}` the dot-free key `foo` is not left
unchanged — lodash `set` replaces its non-object value by the nested
object created for `foo.bar`. -/
theorem expandDotPaths_counterexample :
    lookupJs exObjC10 ("foo") = some (JsValue.str ("x")) ∧
    lookupJs (expandDotPaths exObjC10) ("foo") =
      some (JsValue.obj [(("bar"), JsValue.str ("baz"))]) ∧
    lookupJs (expandDotPaths exObjC10) ("foo") ≠ some (JsValue.str ("x")) :=
  ⟨rfl, rfl, fun h => JsValue.noConfusion (Option.some.inj h)⟩

/-- Claim C10 (amended): for every object with distinct keys such that no
key's dot-path is a prefix of another key's dot-path, `expandDotPaths`
leaves every dot-free key unchanged, and removes every dotted key from the
top level while making its original value readable along the nested path
obtained by splitting the key on dots. -/
theorem expandDotPaths_expansion (o : JsObj)
    (hnd : (o.map Prod.fst).Nodup)
    (hpf : ∀ k1 ∈ o.map Prod.fst, ∀ k2 ∈ o.map Prod.fst, k1 ≠ k2 →
        startsWith (pathOf k1) (pathOf k2) = false) :
    (∀ k ∈ o.map Prod.fst, hasDot k = false →
       lookupJs (expandDotPaths o) k = lookupJs o k) ∧
    (∀ k ∈ o.map Prod.fst, hasDot k = true →
       lookupJs (expandDotPaths o) k = none ∧
       getPath (expandDotPaths o) (pathOf k) = lookupJs o k) := by
  have h := expand_fold_inv o (o.map Prod.fst) [] o rfl hnd hpf
      (fun k _ _ => rfl) (fun k hk => absurd hk (List.not_mem_nil k))
  exact ⟨h.1, fun k hk => h.2 k hk⟩

/-- The concrete object of the C10 witness. -/
def objW : JsObj :=
  [(("plain"), JsValue.str ("v")), (("profile.name"), JsValue.str ("Ada"))]

/-- Witness for C10 at `{plain: "v", "profile.name": "Ada"}`. -/
theorem expandDotPaths_expansion_witness :
    (objW.map Prod.fst).Nodup ∧
    (∀ k1 ∈ objW.map Prod.fst, ∀ k2 ∈ objW.map Prod.fst, k1 ≠ k2 →
        startsWith (pathOf k1) (pathOf k2) = false) ∧
    ((∀ k ∈ objW.map Prod.fst, hasDot k = false →
        lookupJs (expandDotPaths objW) k = lookupJs objW k) ∧
     (∀ k ∈ objW.map Prod.fst, hasDot k = true →
        lookupJs (expandDotPaths objW) k = none ∧
        getPath (expandDotPaths objW) (pathOf k) = lookupJs objW k)) :=
  ⟨by decide, by decide, expandDotPaths_expansion objW (by decide) (by decide)⟩

end OidcPlatform
